import Mathlib

/-!
Verification of the battle simulation in `simulate_battle.py`.

The Python program keeps a 6×5 grid of single-character cells together with a
dictionary of counters (`A`, `B`, `DAYS`, `RECORD`), persists them to a small
text file, and on each invocation performs one battle step on one randomly
chosen row.  This file embeds the program shallowly:

* Python dictionaries with string keys and int values become insertion-ordered
  association lists (`Dict`);
* the text file becomes a `String`; reading it back through `readlines` (with
  universal newline translation) and `rstrip('\n')` becomes `pyLines`;
* Python's `str.split()`, `str.split(':')`, `int(...)`, `str(...)` and
  `str.center` become `pySplitWs`, `splitOnChar`, `parsePyInt`, `intToDecimal`
  and `pyCenter`;
* the two sources of randomness of `simulate_battle`
  (`random.randint(0, BOARD_ROWS - 1)` and `random.random() < 0.5`) become the
  explicit parameters `row_index` and `dice_lt_half`;
* a Python run that raises an uncaught exception (for example a `KeyError` on
  a counters dictionary missing one of the expected keys) is modelled by
  `Option`: the function returns `none` and in particular nothing is saved.
-/

/-- Number of board rows (`BOARD_ROWS = 6` in the source). -/
def BOARD_ROWS : Nat := 6

/-- Number of board columns (`BOARD_COLS = 5` in the source). -/
def BOARD_COLS : Nat := 5

/-- A board is a list of rows, each row a list of single-character cells. -/
abbrev Board := List (List Char)

/-- A Python dict with string keys and integer values, as an insertion-ordered
association list.  All dicts built by the program have pairwise distinct keys. -/
abbrev Dict := List (String × Int)

/-- Lookup, `d[k]`; `none` models a `KeyError`. -/
def dictGet? (d : Dict) (k : String) : Option Int :=
  (d.find? (fun p => p.1 == k)).map (fun p => p.2)

/-- Membership test, `k in d`. -/
def dictContains (d : Dict) (k : String) : Bool :=
  d.any (fun p => p.1 == k)

/-- Assignment `d[k] = v`: CPython dicts overwrite the value in place, keeping
the key's original position; a new key is appended at the end. -/
def dictInsert : Dict → String → Int → Dict
  | [], k, v => [(k, v)]
  | p :: t, k, v => if p.1 == k then (k, v) :: t else p :: dictInsert t k v

/-- Splits file content into lines the way the program reads it back:
`open` in text mode translates `\r\n` and `\r` to `\n`, `readlines` splits
after each newline, and each line is `rstrip('\n')`-ed.  Characters after the
last newline form a final line; a trailing newline does not produce an extra
empty line. -/
def pyLines : List Char → List String
  | [] => []
  | '\n' :: rest => "" :: pyLines rest
  | '\r' :: '\n' :: rest => "" :: pyLines rest
  | '\r' :: rest => "" :: pyLines rest
  | c :: rest =>
    match pyLines rest with
    | [] => [String.mk [c]]
    | s :: ss => String.mk (c :: s.data) :: ss

/-- Python's `str.split()` with no argument: maximal runs of non-whitespace
characters, with no empty tokens. -/
def pySplitWs : List Char → List String
  | [] => []
  | c :: rest =>
    if c.isWhitespace then pySplitWs rest
    else
      match rest with
      | [] => [String.mk [c]]
      | c2 :: _ =>
        if c2.isWhitespace then String.mk [c] :: pySplitWs rest
        else
          match pySplitWs rest with
          | [] => [String.mk [c]]
          | s :: ss => String.mk (c :: s.data) :: ss

/-- Python's `str.split(sep)` for a single-character separator: splits at every
occurrence, keeping empty pieces (`"".split(':') == ['']`). -/
def splitOnChar (sep : Char) : List Char → List String
  | [] => [""]
  | c :: rest =>
    if c = sep then "" :: splitOnChar sep rest
    else
      match splitOnChar sep rest with
      | [] => [String.mk [c]]
      | s :: ss => String.mk (c :: s.data) :: ss

/-- The whitespace stripping Python's `int` performs before parsing. -/
def pyStrip (l : List Char) : List Char :=
  ((l.dropWhile Char.isWhitespace).reverse.dropWhile Char.isWhitespace).reverse

/-- Numeric value of a decimal digit character. -/
def chVal (c : Char) : Nat := c.toNat - 48

/-- Loop of Python's `int(...)` after the first digit: further digits,
optionally separated by single underscores (`digit (["_"] digit)*`). -/
def parseDigitsCore (acc : Nat) : List Char → Option Nat
  | [] => some acc
  | c :: rest =>
    if c = '_' then
      match rest with
      | c2 :: rest2 =>
        if c2.isDigit then parseDigitsCore (acc * 10 + chVal c2) rest2 else none
      | [] => none
    else if c.isDigit then parseDigitsCore (acc * 10 + chVal c) rest
    else none

/-- Unsigned decimal literal as accepted by Python's `int`. -/
def parseUDigits : List Char → Option Nat
  | [] => none
  | c :: rest => if c.isDigit then parseDigitsCore (chVal c) rest else none

/-- Embeds Python's `int(s)` for strings: optional surrounding whitespace,
optional sign, then a nonempty digit sequence; `none` where `int` raises
`ValueError`. -/
def parsePyInt (s : String) : Option Int :=
  match pyStrip s.data with
  | [] => none
  | c :: rest =>
    if c = '-' then (parseUDigits rest).map (fun m : Nat => -(m : Int))
    else if c = '+' then (parseUDigits rest).map (fun m : Nat => (m : Int))
    else (parseUDigits (c :: rest)).map (fun m : Nat => (m : Int))

/-- Decimal digit character for a value below 10. -/
def digitCh (m : Nat) : Char := Char.ofNat (48 + m)

/-- Fuel-driven decimal digit loop, least significant digit first.  Structural
recursion on the fuel keeps the definition kernel-reducible. -/
def natDigitsRevFuel : Nat → Nat → List Char
  | 0, _ => []
  | _ + 1, 0 => []
  | fuel + 1, n + 1 => digitCh ((n + 1) % 10) :: natDigitsRevFuel fuel ((n + 1) / 10)

/-- Decimal digits of a number, least significant first; empty for 0.  Fuel `n`
suffices because the argument at least halves at every step. -/
def natDigitsRev (n : Nat) : List Char := natDigitsRevFuel n n

/-- The decimal string Python's `str` produces for an integer. -/
def intToDecimal (n : Int) : String :=
  if n < 0 then String.mk ('-' :: (natDigitsRev n.natAbs).reverse)
  else if n = 0 then "0"
  else String.mk (natDigitsRev n.natAbs).reverse

/-- Python's `sep.join(pieces)`. -/
def joinSep (sep : String) : List String → String
  | [] => ""
  | s :: ss => ss.foldl (fun acc t => acc ++ sep ++ t) s

/-- Python's `s.center(width)` with the default space fill: CPython puts
`marg // 2 + (marg & width & 1)` fill characters on the left. -/
def pyCenter (s : String) (width : Nat) : String :=
  if width ≤ s.length then s
  else
    let marg := width - s.length
    let left := marg / 2 + (marg &&& width &&& 1)
    String.mk (List.replicate left ' ') ++ s ++ String.mk (List.replicate (marg - left) ' ')

/-- Embeds `create_initial_board`: rows 0-2 get 3 `A`s then 2 `B`s, rows 3-5
get 2 `A`s then 3 `B`s. -/
def create_initial_board : Board :=
  (List.range BOARD_ROWS).map (fun r =>
    if r < BOARD_ROWS / 2 then
      List.replicate 3 'A' ++ List.replicate (BOARD_COLS - 3) 'B'
    else
      List.replicate (BOARD_COLS - 3) 'A' ++ List.replicate 3 'B')

/-- Embeds `default_state`: zero counters and the initial board. -/
def default_state : Dict × Board :=
  ([("A", 0), ("B", 0), ("DAYS", 0), ("RECORD", 0)], create_initial_board)

/-- The counters dict `{'A': a, 'B': b, 'DAYS': d, 'RECORD': r}`. -/
def mkWins (a b d r : Int) : Dict :=
  [("A", a), ("B", b), ("DAYS", d), ("RECORD", r)]

/-- Parsing loop of `load_state` over the tokens after the first one on the
first line: each token must split into exactly `key:count` around colons with
`count` parsable as an int, otherwise the `ValueError` is caught and the
default state is used. -/
def parseWinsTokens : List String → Dict → Option Dict
  | [], w => some w
  | p :: ps, w =>
    match splitOnChar ':' p.data with
    | [k, cnt] =>
      match parsePyInt cnt with
      | some v => parseWinsTokens ps (dictInsert w k v)
      | none => none
    | _ => none

/-- Core of `load_state` on the list of lines read from the file. -/
def load_lines (lines : List String) : Dict × Board :=
  if lines.length < 1 + BOARD_ROWS then default_state
  else
    match parseWinsTokens (pySplitWs (lines.headD "").data).tail [] with
    | none => default_state
    | some w0 =>
      let w1 := if dictContains w0 "DAYS" then w0 else dictInsert w0 "DAYS" 0
      let w2 := if dictContains w1 "RECORD" then w1 else dictInsert w1 "RECORD" 0
      let board_lines := (lines.drop 1).take BOARD_ROWS
      if board_lines.any (fun l => l.length != BOARD_COLS) then default_state
      else (w2, board_lines.map String.data)

/-- Embeds `load_state` on the text content of `STATE_FILE` (the missing-file
case, which also yields the default state, is not modelled). -/
def load_state (content : String) : Dict × Board :=
  load_lines (pyLines content.data)

/-- Text written for the board rows by the loop
`for row in board: f.write("".join(row) + "\n")`. -/
def rowsText : Board → String
  | [] => ""
  | row :: t => String.mk row ++ "\n" ++ rowsText t

/-- Embeds `save_state`: the content written to `STATE_FILE`; `none` models the
`KeyError` raised when a counter key is missing. -/
def save_state (wins : Dict) (board : Board) : Option String := do
  let a ← dictGet? wins "A"
  let b ← dictGet? wins "B"
  let d ← dictGet? wins "DAYS"
  let r ← dictGet? wins "RECORD"
  some ("WINS A:" ++ intToDecimal a ++ " B:" ++ intToDecimal b ++
        " DAYS:" ++ intToDecimal d ++ " RECORD:" ++ intToDecimal r ++ "\n" ++
        rowsText board)

/-- Embeds `generate_ascii_board`; `none` models the `KeyError`/`IndexError`
raised on a counters dict missing a key or an empty board. -/
def generate_ascii_board (board : Board) (wins : Dict) : Option String := do
  let cell_width := 5
  let row0 ← board.head?
  let num_cols := row0.length
  let wa ← dictGet? wins "A"
  let wb ← dictGet? wins "B"
  let wd ← dictGet? wins "DAYS"
  let wr ← dictGet? wins "RECORD"
  let header := "Wins - A: " ++ intToDecimal wa ++ " | B: " ++ intToDecimal wb ++
    "\nDays: " ++ intToDecimal wd ++ "   Record: " ++ intToDecimal wr ++ "\n\n"
  let top_border := "┌" ++ joinSep "┬" (List.replicate num_cols (String.mk (List.replicate cell_width '─'))) ++ "┐"
  let middle_border := "├" ++ joinSep "┼" (List.replicate num_cols (String.mk (List.replicate cell_width '─'))) ++ "┤"
  let bottom_border := "└" ++ joinSep "┴" (List.replicate num_cols (String.mk (List.replicate cell_width '─'))) ++ "┘"
  let body := (board.enum.map (fun p =>
    let row_line := "│" ++ joinSep "│" (p.2.map (fun cell => pyCenter (String.mk [cell]) cell_width)) ++ "│"
    if p.1 < board.length - 1 then [row_line, middle_border] else [row_line])).flatten
  some (joinSep "\n" ([header, top_border] ++ body ++ [bottom_border]))

/-- Embeds `is_row_uniform`: all cells equal the first one.  In the Python
generator `all(cell == row[0] for cell in row)`, `row[0]` is only evaluated
when the row is nonempty, so the `headD` default is irrelevant. -/
def is_row_uniform (row : List Char) : Bool :=
  row.all (fun cell => cell == row.headD ' ')

/-- The boundary of a row: `max(i for i, cell in enumerate(row) if cell == 'A')`,
with the `ValueError` on an `A`-free row caught and turned into `-1`. -/
def rowBoundary (row : List Char) : Int :=
  match (row.enum.filter (fun p => p.2 == 'A')).map (fun p => ((p.1 : Nat) : Int)) with
  | [] => -1
  | x :: xs => xs.foldl max x

/-- Win branch of `simulate_battle` (`boundary` at an edge): increment the
winner's tally, reset `DAYS`, reset the board, save, and return the state that
was saved together with the saved file content and the ascii output. -/
def win_branch (wins : Dict) (board : Board) (row_index : Nat) (winner : String) :
    Option (Dict × Board × String × String) := do
  let message := "Faction " ++ winner ++ " wins on row " ++ intToDecimal ((row_index : Int) + 1) ++ "!"
  let final_state ← generate_ascii_board board wins
  let w ← dictGet? wins winner
  let wins1 := dictInsert wins winner (w + 1)
  let wins2 := dictInsert wins1 "DAYS" 0
  let board2 := create_initial_board
  let reset_state ← generate_ascii_board board2 wins2
  let ascii_output := message ++ "\n\nFinal board state:\n" ++ final_state ++
    "\n\nBoard reset to initial state:\n" ++ reset_state
  let saved ← save_state wins2 board2
  some (wins2, board2, saved, ascii_output)

/-- Non-win branch of `simulate_battle`: bump `DAYS`, raise `RECORD` if
exceeded, move the boundary one step in the random direction, clamp it to
`[-1, BOARD_COLS - 1]`, rewrite the chosen row, save.  The row rewrite mirrors
the in-place loop `row[i] = 'A' if i <= new_boundary else 'B'`; `List.set` is a
no-op out of range where Python would raise `IndexError`, which cannot happen
for the width-checked rows `load_state` produces. -/
def move_branch (wins : Dict) (board : Board) (row_index : Nat) (row : List Char)
    (boundary : Int) (dice_lt_half : Bool) : Option (Dict × Board × String × String) := do
  let d ← dictGet? wins "DAYS"
  let wins1 := dictInsert wins "DAYS" (d + 1)
  let cur ← dictGet? wins1 "DAYS"
  let rec0 ← dictGet? wins1 "RECORD"
  let wins2 := if rec0 < cur then dictInsert wins1 "RECORD" cur else wins1
  let new1 := if dice_lt_half then boundary + 1 else boundary - 1
  let new2 := max new1 (-1)
  let new3 := min new2 ((BOARD_COLS : Int) - 1)
  let newRow := (List.range BOARD_COLS).foldl
    (fun r i => r.set i (if (i : Int) ≤ new3 then 'A' else 'B')) row
  let board2 := board.set row_index newRow
  let ascii_output ← generate_ascii_board board2 wins2
  let saved ← save_state wins2 board2
  some (wins2, board2, saved, ascii_output)

/-- Embeds one invocation of `simulate_battle` after `load_state`: `wins` and
`board` are the loaded state, `row_index` the value of
`random.randint(0, BOARD_ROWS - 1)` and `dice_lt_half` the outcome of
`random.random() < 0.5`.  The result carries the state passed to `save_state`,
the file content saved, and the returned ascii output; `none` models an
uncaught exception (nothing saved). -/
def simulate_battle (wins : Dict) (board : Board) (row_index : Nat)
    (dice_lt_half : Bool) : Option (Dict × Board × String × String) := do
  let row ← board.get? row_index
  let boundary := rowBoundary row
  if boundary = (BOARD_COLS : Int) - 1 ∨ boundary = -1 then
    win_branch wins board row_index
      (if boundary = (BOARD_COLS : Int) - 1 then "A" else "B")
  else
    move_branch wins board row_index row boundary dice_lt_half

/-- A row of the data model's invariant shape: a contiguous (possibly empty)
prefix of `A`-cells followed by a contiguous suffix of `B`-cells, total width
`BOARD_COLS`. -/
def rowWellFormed (row : List Char) : Prop :=
  ∃ k, k ≤ BOARD_COLS ∧ row = List.replicate k 'A' ++ List.replicate (BOARD_COLS - k) 'B'

/-! ### Basic facts: strings, characters, dictionaries -/

lemma string_data_append (s t : String) : (s ++ t).data = s.data ++ t.data := rfl

lemma string_mk_data (s : String) : String.mk s.data = s := rfl

lemma string_length_data (s : String) : s.length = s.data.length := rfl

lemma dictGet?_nil (k : String) : dictGet? [] k = none := rfl

lemma dictGet?_insert_self (d : Dict) (k : String) (v : Int) :
    dictGet? (dictInsert d k v) k = some v := by
  induction d with
  | nil => simp [dictInsert, dictGet?]
  | cons p t ih =>
    by_cases hp : p.1 = k
    · simp [dictInsert, hp, dictGet?]
    · simp only [dictInsert, beq_iff_eq, hp, if_false]
      simpa [dictGet?, List.find?_cons, hp] using ih

lemma dictGet?_insert_ne (d : Dict) (k k' : String) (v : Int) (h : k' ≠ k) :
    dictGet? (dictInsert d k v) k' = dictGet? d k' := by
  have hne : (k == k') = false := by simp [Ne.symm h]
  induction d with
  | nil => simp [dictInsert, dictGet?, List.find?, hne]
  | cons p t ih =>
    by_cases hp : p.1 = k
    · simp [dictInsert, hp, dictGet?, List.find?_cons, Ne.symm h]
    · simp only [dictInsert, beq_iff_eq, hp, if_false]
      by_cases hp' : p.1 = k'
      · simp [dictGet?, List.find?_cons, hp']
      · simpa [dictGet?, List.find?_cons, hp'] using ih

lemma ws_char_cases (c : Char) (h : c.isWhitespace = true) :
    c = ' ' ∨ c = '\t' ∨ c = '\r' ∨ c = '\n' := by
  simp [Char.isWhitespace] at h
  tauto

lemma digit_not_ws (c : Char) (h : c.isDigit = true) : c.isWhitespace = false := by
  by_contra hw
  have hw' : c.isWhitespace = true := by simpa using hw
  rcases ws_char_cases c hw' with rfl | rfl | rfl | rfl <;> simp at h

lemma digit_ne_colon (c : Char) (h : c.isDigit = true) : c ≠ ':' := by
  rintro rfl; simp at h

lemma digit_ne_lf (c : Char) (h : c.isDigit = true) : c ≠ '\n' := by
  rintro rfl; simp at h

lemma digit_ne_cr (c : Char) (h : c.isDigit = true) : c ≠ '\r' := by
  rintro rfl; simp at h

lemma digit_ne_minus (c : Char) (h : c.isDigit = true) : c ≠ '-' := by
  rintro rfl; simp at h

lemma digit_ne_plus (c : Char) (h : c.isDigit = true) : c ≠ '+' := by
  rintro rfl; simp at h

lemma digit_ne_underscore (c : Char) (h : c.isDigit = true) : c ≠ '_' := by
  rintro rfl; simp at h

/-! ### Decimal printing and parsing round-trip -/

lemma chVal_digitCh (m : Nat) (h : m < 10) : chVal (digitCh m) = m := by
  interval_cases m <;> decide

lemma isDigit_digitCh (m : Nat) (h : m < 10) : (digitCh m).isDigit = true := by
  interval_cases m <;> decide

lemma mem_natDigitsRevFuel_isDigit :
    ∀ fuel n c, c ∈ natDigitsRevFuel fuel n → c.isDigit = true := by
  intro fuel
  induction fuel with
  | zero => intro n c h; simp [natDigitsRevFuel] at h
  | succ f ih =>
    intro n c h
    cases n with
    | zero => simp [natDigitsRevFuel] at h
    | succ m =>
      simp only [natDigitsRevFuel, List.mem_cons] at h
      rcases h with rfl | h
      · exact isDigit_digitCh _ (Nat.mod_lt _ (by norm_num))
      · exact ih _ _ h

lemma natDigitsRevFuel_foldr (fuel : Nat) :
    ∀ n, n ≤ fuel →
      (natDigitsRevFuel fuel n).foldr (fun c a => a * 10 + chVal c) 0 = n := by
  induction fuel with
  | zero => intro n h; interval_cases n; simp [natDigitsRevFuel]
  | succ f ih =>
    intro n h
    cases n with
    | zero => simp [natDigitsRevFuel]
    | succ m =>
      have hdiv : (m + 1) / 10 ≤ f := by
        have := Nat.div_lt_self (Nat.succ_pos m) (show 1 < 10 by norm_num)
        omega
      simp only [natDigitsRevFuel, List.foldr_cons]
      rw [ih _ hdiv, chVal_digitCh _ (Nat.mod_lt _ (by norm_num))]
      omega

lemma natDigitsRevFuel_ne_nil (fuel n : Nat) (h0 : 0 < n) (h : n ≤ fuel) :
    natDigitsRevFuel fuel n ≠ [] := by
  cases fuel with
  | zero => omega
  | succ f =>
    cases n with
    | zero => omega
    | succ m => simp [natDigitsRevFuel]

lemma parseDigitsCore_all_digits (l : List Char) :
    ∀ acc, (∀ c ∈ l, c.isDigit = true) →
      parseDigitsCore acc l = some (l.foldl (fun a c => a * 10 + chVal c) acc) := by
  induction l with
  | nil => intro acc _; simp [parseDigitsCore]
  | cons c t ih =>
    intro acc h
    have hc : c.isDigit = true := h c (by simp)
    have hne : c ≠ '_' := digit_ne_underscore c hc
    rw [parseDigitsCore.eq_def]
    simp only [hne, if_false, hc, if_true, List.foldl_cons]
    exact ih _ (fun x hx => h x (by simp [hx]))

lemma parseUDigits_all_digits (l : List Char) (hne : l ≠ [])
    (h : ∀ c ∈ l, c.isDigit = true) :
    parseUDigits l = some (l.foldl (fun a c => a * 10 + chVal c) 0) := by
  cases l with
  | nil => exact absurd rfl hne
  | cons c t =>
    have hc : c.isDigit = true := h c (by simp)
    simp only [parseUDigits, hc, if_true, List.foldl_cons]
    have := parseDigitsCore_all_digits t (0 * 10 + chVal c) (fun x hx => h x (by simp [hx]))
    simpa using this

lemma parseUDigits_natDigitsRev (n : Nat) (h : 0 < n) :
    parseUDigits (natDigitsRev n).reverse = some n := by
  have hdig : ∀ c ∈ (natDigitsRev n).reverse, c.isDigit = true := by
    intro c hc
    exact mem_natDigitsRevFuel_isDigit n n c (List.mem_reverse.mp hc)
  have hne : (natDigitsRev n).reverse ≠ [] := by
    simp only [ne_eq, List.reverse_eq_nil_iff]
    exact natDigitsRevFuel_ne_nil n n h le_rfl
  rw [parseUDigits_all_digits _ hne hdig, List.foldl_reverse]
  simp only [natDigitsRev]
  rw [natDigitsRevFuel_foldr n n le_rfl]

lemma data_mk (l : List Char) : (String.mk l).data = l := rfl

lemma dropWhile_ws_eq_self (l : List Char) (h : ∀ c ∈ l, c.isWhitespace = false) :
    l.dropWhile Char.isWhitespace = l := by
  cases l with
  | nil => rfl
  | cons c t => simp [List.dropWhile, h c (by simp)]

lemma pyStrip_eq_self (l : List Char) (h : ∀ c ∈ l, c.isWhitespace = false) :
    pyStrip l = l := by
  unfold pyStrip
  rw [dropWhile_ws_eq_self l h,
    dropWhile_ws_eq_self _ (fun c hc => h c (List.mem_reverse.mp hc)),
    List.reverse_reverse]

lemma intToDecimal_mem (n : Int) :
    ∀ c ∈ (intToDecimal n).data, c = '-' ∨ c.isDigit = true := by
  intro c hc
  unfold intToDecimal at hc
  split at hc
  · simp only [data_mk, List.mem_cons] at hc
    rcases hc with rfl | hc
    · exact Or.inl rfl
    · exact Or.inr (mem_natDigitsRevFuel_isDigit _ _ _ (List.mem_reverse.mp hc))
  · split at hc
    · have : c = '0' := by simpa using hc
      subst this
      exact Or.inr (by decide)
    · simp only [data_mk] at hc
      exact Or.inr (mem_natDigitsRevFuel_isDigit _ _ _ (List.mem_reverse.mp hc))

lemma intToDecimal_not_ws (n : Int) :
    ∀ c ∈ (intToDecimal n).data, c.isWhitespace = false := by
  intro c hc
  rcases intToDecimal_mem n c hc with rfl | h
  · decide
  · exact digit_not_ws c h

lemma intToDecimal_ne_lf (n : Int) : ∀ c ∈ (intToDecimal n).data, c ≠ '\n' := by
  intro c hc
  rcases intToDecimal_mem n c hc with rfl | h
  · decide
  · exact digit_ne_lf c h

lemma intToDecimal_ne_cr (n : Int) : ∀ c ∈ (intToDecimal n).data, c ≠ '\r' := by
  intro c hc
  rcases intToDecimal_mem n c hc with rfl | h
  · decide
  · exact digit_ne_cr c h

lemma intToDecimal_ne_colon (n : Int) : ∀ c ∈ (intToDecimal n).data, c ≠ ':' := by
  intro c hc
  rcases intToDecimal_mem n c hc with rfl | h
  · decide
  · exact digit_ne_colon c h

lemma parsePyInt_intToDecimal (n : Int) : parsePyInt (intToDecimal n) = some n := by
  rcases lt_trichotomy n 0 with hn | hn | hn
  · have hpos : 0 < n.natAbs := by omega
    have hstrip : pyStrip (String.mk ('-' :: (natDigitsRev n.natAbs).reverse)).data
        = '-' :: (natDigitsRev n.natAbs).reverse := by
      apply pyStrip_eq_self
      intro c hc
      simp only [data_mk, List.mem_cons] at hc
      rcases hc with rfl | hc
      · decide
      · exact digit_not_ws _ (mem_natDigitsRevFuel_isDigit _ _ _ (List.mem_reverse.mp hc))
    unfold parsePyInt intToDecimal
    rw [if_pos hn, hstrip]
    show (parseUDigits ((natDigitsRev n.natAbs).reverse)).map (fun m : Nat => -(m : Int)) = some n
    rw [parseUDigits_natDigitsRev _ hpos]
    show some (-((n.natAbs : Nat) : Int)) = some n
    congr 1
    omega
  · subst hn; decide
  · have hpos : 0 < n.natAbs := by omega
    obtain ⟨c, rest, hcr⟩ : ∃ c rest, (natDigitsRev n.natAbs).reverse = c :: rest := by
      have hne : (natDigitsRev n.natAbs).reverse ≠ [] := by
        simp only [ne_eq, List.reverse_eq_nil_iff]
        exact natDigitsRevFuel_ne_nil _ _ hpos le_rfl
      exact List.exists_cons_of_ne_nil hne
    have hdig : c.isDigit = true := by
      have : c ∈ (natDigitsRev n.natAbs).reverse := by rw [hcr]; simp
      exact mem_natDigitsRevFuel_isDigit _ _ _ (List.mem_reverse.mp this)
    have hstrip : pyStrip (String.mk ((natDigitsRev n.natAbs).reverse)).data
        = c :: rest := by
      rw [data_mk, ← hcr]
      apply pyStrip_eq_self
      intro x hx
      exact digit_not_ws _ (mem_natDigitsRevFuel_isDigit _ _ _ (List.mem_reverse.mp hx))
    unfold parsePyInt intToDecimal
    rw [if_neg (show ¬n < 0 by omega), if_neg (show ¬n = 0 by omega), hstrip]
    show (if c = '-' then (parseUDigits rest).map (fun m : Nat => -(m : Int))
        else if c = '+' then (parseUDigits rest).map (fun m : Nat => (m : Int))
        else (parseUDigits (c :: rest)).map (fun m : Nat => (m : Int))) = some n
    rw [if_neg (digit_ne_minus c hdig), if_neg (digit_ne_plus c hdig)]
    rw [← hcr, parseUDigits_natDigitsRev _ hpos]
    show some ((n.natAbs : Nat) : Int) = some n
    congr 1
    omega

/-! ### Splitting file content into lines and tokens -/

lemma pyLines_cons_other (c : Char) (l : List Char) (h1 : c ≠ '\n') (h2 : c ≠ '\r') :
    pyLines (c :: l) = match pyLines l with
      | [] => [String.mk [c]]
      | s :: ss => String.mk (c :: s.data) :: ss := by
  simp [pyLines, h1, h2]

lemma pyLines_append (s rest : List Char) (h : ∀ c ∈ s, c ≠ '\n' ∧ c ≠ '\r') :
    pyLines (s ++ '\n' :: rest) = String.mk s :: pyLines rest := by
  induction s with
  | nil => simp [pyLines]
  | cons c t ih =>
    have hc := h c (by simp)
    rw [List.cons_append, pyLines_cons_other c _ hc.1 hc.2,
      ih (fun x hx => h x (by simp [hx]))]

lemma pyLines_rowsText (bd : Board) (h : ∀ row ∈ bd, ∀ c ∈ row, c ≠ '\n' ∧ c ≠ '\r') :
    pyLines (rowsText bd).data = bd.map String.mk := by
  induction bd with
  | nil => rfl
  | cons row t ih =>
    have hd : (rowsText (row :: t)).data = row ++ '\n' :: (rowsText t).data := by
      show (String.mk row ++ "\n" ++ rowsText t).data = _
      rw [string_data_append, string_data_append, data_mk, List.append_assoc]
      rfl
    rw [show rowsText (row :: t) = String.mk (row ++ '\n' :: (rowsText t).data) from
      congrArg String.mk hd ▸ (string_mk_data _).symm]
    rw [data_mk, pyLines_append row _ (h row (by simp)),
      ih (fun r hr c hc => h r (by simp [hr]) c hc), List.map_cons]

lemma pySplitWs_ws (c : Char) (l : List Char) (h : c.isWhitespace = true) :
    pySplitWs (c :: l) = pySplitWs l := by
  simp [pySplitWs, h]

lemma pySplitWs_singleton (c : Char) (hc : c.isWhitespace = false) :
    pySplitWs [c] = [String.mk [c]] := by
  simp [pySplitWs, hc]

lemma pySplitWs_cons_ws (c c2 : Char) (l : List Char) (hc : c.isWhitespace = false)
    (h2 : c2.isWhitespace = true) :
    pySplitWs (c :: c2 :: l) = String.mk [c] :: pySplitWs (c2 :: l) := by
  simp [pySplitWs, hc, h2]

lemma pySplitWs_cons_cons (c c2 : Char) (l : List Char) (hc : c.isWhitespace = false)
    (h2 : c2.isWhitespace = false) :
    pySplitWs (c :: c2 :: l) = match pySplitWs (c2 :: l) with
      | [] => [String.mk [c]]
      | s :: ss => String.mk (c :: s.data) :: ss := by
  conv_lhs => rw [pySplitWs]
  simp [hc, h2]

lemma pySplitWs_token (c : Char) (w rest : List Char) (hc : c.isWhitespace = false)
    (hw : ∀ x ∈ w, x.isWhitespace = false) :
    pySplitWs (c :: (w ++ ' ' :: rest)) = String.mk (c :: w) :: pySplitWs rest := by
  induction w generalizing c with
  | nil =>
    rw [List.nil_append, pySplitWs_cons_ws c ' ' rest hc (by decide),
      pySplitWs_ws ' ' rest (by decide)]
  | cons x w' ih =>
    have hx : x.isWhitespace = false := hw x (by simp)
    have hrec := ih x hx (fun y hy => hw y (by simp [hy]))
    rw [List.cons_append, pySplitWs_cons_cons c x _ hc hx, hrec]

lemma pySplitWs_single (c : Char) (w : List Char) (hc : c.isWhitespace = false)
    (hw : ∀ x ∈ w, x.isWhitespace = false) :
    pySplitWs (c :: w) = [String.mk (c :: w)] := by
  induction w generalizing c with
  | nil => exact pySplitWs_singleton c hc
  | cons x w' ih =>
    have hx : x.isWhitespace = false := hw x (by simp)
    have hrec := ih x hx (fun y hy => hw y (by simp [hy]))
    rw [pySplitWs_cons_cons c x w' hc hx, hrec]

lemma splitOnChar_cons_ne (sep c : Char) (l : List Char) (h : c ≠ sep) :
    splitOnChar sep (c :: l) = match splitOnChar sep l with
      | [] => [String.mk [c]]
      | s :: ss => String.mk (c :: s.data) :: ss := by
  simp [splitOnChar, h]

lemma splitOnChar_no_sep (sep : Char) (w : List Char) (hw : ∀ x ∈ w, x ≠ sep) :
    splitOnChar sep w = [String.mk w] := by
  induction w with
  | nil => rfl
  | cons c t ih =>
    rw [splitOnChar_cons_ne sep c t (hw c (by simp)), ih (fun x hx => hw x (by simp [hx]))]

lemma splitOnChar_word (sep : Char) (w rest : List Char) (hw : ∀ x ∈ w, x ≠ sep) :
    splitOnChar sep (w ++ sep :: rest) = String.mk w :: splitOnChar sep rest := by
  induction w with
  | nil => simp [splitOnChar]
  | cons c t ih =>
    rw [List.cons_append, splitOnChar_cons_ne sep c _ (hw c (by simp)),
      ih (fun x hx => hw x (by simp [hx]))]

/-! ### The saved header line splits back into its tokens -/

lemma cons_not_ws (c : Char) (l : List Char) (hc : c.isWhitespace = false)
    (hl : ∀ x ∈ l, x.isWhitespace = false) : ∀ x ∈ c :: l, x.isWhitespace = false := by
  intro x hx
  rcases List.mem_cons.mp hx with rfl | hx
  · exact hc
  · exact hl x hx

lemma intToDecimal_tail_not_ws (n : Int) (c0 : Char) (h0 : c0.isWhitespace = false) :
    ∀ x ∈ c0 :: (intToDecimal n).data, x.isWhitespace = false :=
  cons_not_ws c0 _ h0 (intToDecimal_not_ws n)

lemma pySplitWs_wins_header (a b d r : Int) :
    pySplitWs ("WINS A:" ++ intToDecimal a ++ " B:" ++ intToDecimal b ++
      " DAYS:" ++ intToDecimal d ++ " RECORD:" ++ intToDecimal r).data =
    ["WINS", String.mk ('A' :: ':' :: (intToDecimal a).data),
     String.mk ('B' :: ':' :: (intToDecimal b).data),
     String.mk ('D' :: 'A' :: 'Y' :: 'S' :: ':' :: (intToDecimal d).data),
     String.mk ('R' :: 'E' :: 'C' :: 'O' :: 'R' :: 'D' :: ':' :: (intToDecimal r).data)] := by
  have e : ("WINS A:" ++ intToDecimal a ++ " B:" ++ intToDecimal b ++
      " DAYS:" ++ intToDecimal d ++ " RECORD:" ++ intToDecimal r).data =
      'W' :: (['I', 'N', 'S'] ++ ' ' ::
        ('A' :: ((':' :: (intToDecimal a).data) ++ ' ' ::
          ('B' :: ((':' :: (intToDecimal b).data) ++ ' ' ::
            ('D' :: (('A' :: 'Y' :: 'S' :: ':' :: (intToDecimal d).data) ++ ' ' ::
              ('R' :: ('E' :: 'C' :: 'O' :: 'R' :: 'D' :: ':' ::
                (intToDecimal r).data))))))))) := by
    simp only [string_data_append, List.append_assoc]
    rfl
  rw [e]
  rw [pySplitWs_token 'W' ['I', 'N', 'S'] _ (by decide) (by decide)]
  rw [pySplitWs_token 'A' (':' :: (intToDecimal a).data) _ (by decide)
    (intToDecimal_tail_not_ws a ':' (by decide))]
  rw [pySplitWs_token 'B' (':' :: (intToDecimal b).data) _ (by decide)
    (intToDecimal_tail_not_ws b ':' (by decide))]
  rw [pySplitWs_token 'D' ('A' :: 'Y' :: 'S' :: ':' :: (intToDecimal d).data) _ (by decide)
    (cons_not_ws 'A' _ (by decide) (cons_not_ws 'Y' _ (by decide)
      (cons_not_ws 'S' _ (by decide) (intToDecimal_tail_not_ws d ':' (by decide)))))]
  rw [pySplitWs_single 'R' ('E' :: 'C' :: 'O' :: 'R' :: 'D' :: ':' :: (intToDecimal r).data)
    (by decide)
    (cons_not_ws 'E' _ (by decide) (cons_not_ws 'C' _ (by decide)
      (cons_not_ws 'O' _ (by decide) (cons_not_ws 'R' _ (by decide)
        (cons_not_ws 'D' _ (by decide) (intToDecimal_tail_not_ws r ':' (by decide)))))))]

/-! ### Loading back what was saved -/

lemma splitOnChar_key_token (key : List Char) (xs : List Char)
    (hkey : ∀ x ∈ key, x ≠ ':') (hxs : ∀ x ∈ xs, x ≠ ':') :
    splitOnChar ':' (key ++ ':' :: xs) = [String.mk key, String.mk xs] := by
  rw [splitOnChar_word ':' key xs hkey, splitOnChar_no_sep ':' xs hxs]

lemma parseWinsTokens_header (a b d r : Int) :
    parseWinsTokens [String.mk ('A' :: ':' :: (intToDecimal a).data),
      String.mk ('B' :: ':' :: (intToDecimal b).data),
      String.mk ('D' :: 'A' :: 'Y' :: 'S' :: ':' :: (intToDecimal d).data),
      String.mk ('R' :: 'E' :: 'C' :: 'O' :: 'R' :: 'D' :: ':' :: (intToDecimal r).data)] []
    = some (mkWins a b d r) := by
  have hsa : splitOnChar ':' ('A' :: ':' :: (intToDecimal a).data)
      = [String.mk ['A'], String.mk (intToDecimal a).data] :=
    splitOnChar_key_token ['A'] _ (by decide) (intToDecimal_ne_colon a)
  have hsb : splitOnChar ':' ('B' :: ':' :: (intToDecimal b).data)
      = [String.mk ['B'], String.mk (intToDecimal b).data] :=
    splitOnChar_key_token ['B'] _ (by decide) (intToDecimal_ne_colon b)
  have hsd : splitOnChar ':' ('D' :: 'A' :: 'Y' :: 'S' :: ':' :: (intToDecimal d).data)
      = [String.mk ['D', 'A', 'Y', 'S'], String.mk (intToDecimal d).data] :=
    splitOnChar_key_token ['D', 'A', 'Y', 'S'] _ (by decide) (intToDecimal_ne_colon d)
  have hsr : splitOnChar ':' ('R' :: 'E' :: 'C' :: 'O' :: 'R' :: 'D' :: ':' :: (intToDecimal r).data)
      = [String.mk ['R', 'E', 'C', 'O', 'R', 'D'], String.mk (intToDecimal r).data] :=
    splitOnChar_key_token ['R', 'E', 'C', 'O', 'R', 'D'] _ (by decide) (intToDecimal_ne_colon r)
  simp only [parseWinsTokens, data_mk, hsa, hsb, hsd, hsr, string_mk_data,
    parsePyInt_intToDecimal]
  rfl

lemma load_lines_good (hdr : String) (rows : List String) (w0 : Dict)
    (hlen : rows.length = BOARD_ROWS)
    (htok : parseWinsTokens (pySplitWs hdr.data).tail [] = some w0)
    (hD : dictContains w0 "DAYS" = true) (hR : dictContains w0 "RECORD" = true)
    (hwide : ∀ l ∈ rows, l.length = BOARD_COLS) :
    load_lines (hdr :: rows) = (w0, rows.map String.data) := by
  have htake : rows.take BOARD_ROWS = rows := List.take_of_length_le (by omega)
  have hany : rows.any (fun l => l.length != BOARD_COLS) = false := by
    rw [List.any_eq_false]
    intro s hs
    simp [hwide s hs]
  unfold load_lines
  rw [if_neg (by simp [hlen]; omega)]
  simp only [List.headD_cons]
  rw [htok]
  simp only [hD, hR, if_true, List.drop_succ_cons, List.drop_zero, htake, hany,
    Bool.false_eq_true, if_false]

lemma load_lines_grid (hdr : String) (rows : List String) (w0 : Dict)
    (hlen : BOARD_ROWS ≤ rows.length)
    (htok : parseWinsTokens (pySplitWs hdr.data).tail [] = some w0)
    (hwide : ∀ l ∈ rows.take BOARD_ROWS, l.length = BOARD_COLS) :
    (load_lines (hdr :: rows)).2 = (rows.take BOARD_ROWS).map String.data := by
  have hany : (rows.take BOARD_ROWS).any (fun l => l.length != BOARD_COLS) = false := by
    rw [List.any_eq_false]
    intro s hs
    simp [hwide s hs]
  unfold load_lines
  rw [if_neg (by simp; omega)]
  simp only [List.headD_cons]
  rw [htok]
  simp only [List.drop_succ_cons, List.drop_zero, hany, Bool.false_eq_true, if_false]

lemma load_state_save (a b d r : Int) (board : Board)
    (hlen : board.length = BOARD_ROWS)
    (hwide : ∀ row ∈ board, row.length = BOARD_COLS)
    (hchar : ∀ row ∈ board, ∀ c ∈ row, c ≠ '\n' ∧ c ≠ '\r') :
    load_state ("WINS A:" ++ intToDecimal a ++ " B:" ++ intToDecimal b ++
      " DAYS:" ++ intToDecimal d ++ " RECORD:" ++ intToDecimal r ++ "\n" ++ rowsText board)
    = (mkWins a b d r, board) := by
  have hint : ∀ (n : Int), ∀ c ∈ (intToDecimal n).data, c ≠ '\n' ∧ c ≠ '\r' :=
    fun n c hc => ⟨intToDecimal_ne_lf n c hc, intToDecimal_ne_cr n c hc⟩
  have hhdr : ∀ c ∈ ("WINS A:" ++ intToDecimal a ++ " B:" ++ intToDecimal b ++
      " DAYS:" ++ intToDecimal d ++ " RECORD:" ++ intToDecimal r).data,
      c ≠ '\n' ∧ c ≠ '\r' := by
    have l1 : ∀ c ∈ ("WINS A:" : String).data, c ≠ '\n' ∧ c ≠ '\r' := by decide
    have l2 : ∀ c ∈ (" B:" : String).data, c ≠ '\n' ∧ c ≠ '\r' := by decide
    have l3 : ∀ c ∈ (" DAYS:" : String).data, c ≠ '\n' ∧ c ≠ '\r' := by decide
    have l4 : ∀ c ∈ (" RECORD:" : String).data, c ≠ '\n' ∧ c ≠ '\r' := by decide
    intro c hc
    simp only [string_data_append, List.append_assoc, List.mem_append] at hc
    rcases hc with h | h | h | h | h | h | h | h
    · exact l1 c h
    · exact hint a c h
    · exact l2 c h
    · exact hint b c h
    · exact l3 c h
    · exact hint d c h
    · exact l4 c h
    · exact hint r c h
  have hdata : ("WINS A:" ++ intToDecimal a ++ " B:" ++ intToDecimal b ++
      " DAYS:" ++ intToDecimal d ++ " RECORD:" ++ intToDecimal r ++ "\n" ++ rowsText board).data
      = ("WINS A:" ++ intToDecimal a ++ " B:" ++ intToDecimal b ++
        " DAYS:" ++ intToDecimal d ++ " RECORD:" ++ intToDecimal r).data
        ++ '\n' :: (rowsText board).data := by
    simp only [string_data_append, List.append_assoc]
    rfl
  unfold load_state
  rw [hdata, pyLines_append _ _ hhdr, pyLines_rowsText board hchar, string_mk_data]
  rw [load_lines_good _ _ (mkWins a b d r) (by simp [hlen])
    (by rw [pySplitWs_wins_header, List.tail_cons, parseWinsTokens_header])
    rfl rfl
    (by
      intro l hl
      rcases List.mem_map.mp hl with ⟨row, hrow, rfl⟩
      simp [string_length_data, data_mk, hwide row hrow])]
  rw [List.map_map, show String.data ∘ String.mk = id from funext (fun l => rfl), List.map_id]

/-! ### Malformed counter tokens make the parse fail -/

lemma parseWinsTokens_none (ts : List String) :
    ∀ w : Dict,
      (∃ p ∈ ts, ∀ k cnt, splitOnChar ':' p.data = [k, cnt] → parsePyInt cnt = none) →
      parseWinsTokens ts w = none := by
  induction ts with
  | nil =>
    intro w h
    rcases h with ⟨p, hp, _⟩
    simp at hp
  | cons q ts ih =>
    intro w h
    rcases h with ⟨p, hp, hbad⟩
    rcases List.mem_cons.mp hp with rfl | hp'
    · rcases hsplit : splitOnChar ':' p.data with _ | ⟨k, rest⟩
      · simp [parseWinsTokens, hsplit]
      · rcases rest with _ | ⟨cnt, rest2⟩
        · simp [parseWinsTokens, hsplit]
        · rcases rest2 with _ | ⟨x, xs⟩
          · simp [parseWinsTokens, hsplit, hbad k cnt hsplit]
          · simp [parseWinsTokens, hsplit]
    · rcases hsplit : splitOnChar ':' q.data with _ | ⟨k, rest⟩
      · simp [parseWinsTokens, hsplit]
      · rcases rest with _ | ⟨cnt, rest2⟩
        · simp [parseWinsTokens, hsplit]
        · rcases rest2 with _ | ⟨x, xs⟩
          · rcases hparse : parsePyInt cnt with _ | v
            · simp [parseWinsTokens, hsplit, hparse]
            · rw [parseWinsTokens.eq_def]
              simp only [hsplit, hparse]
              exact ih _ ⟨p, hp', hbad⟩
          · simp [parseWinsTokens, hsplit]

/-! ### The battle step -/

/-- The counters after the non-win branch: `DAYS` incremented, `RECORD` raised
to the new `DAYS` when exceeded. -/
def move_wins (wins : Dict) (d0 r0 : Int) : Dict :=
  if r0 < d0 + 1 then dictInsert (dictInsert wins "DAYS" (d0 + 1)) "RECORD" (d0 + 1)
  else dictInsert wins "DAYS" (d0 + 1)

/-- The boundary after one coin-flip move, clamped to `[-1, BOARD_COLS - 1]`. -/
def clampedBoundary (bd : Int) (dice_lt_half : Bool) : Int :=
  min (max (if dice_lt_half then bd + 1 else bd - 1) (-1)) ((BOARD_COLS : Int) - 1)

/-- The row whose cells are `A` exactly at the indices ≤ `m`. -/
def thresholdRow (m : Int) : List Char :=
  (List.range BOARD_COLS).map (fun i : Nat => if (i : Int) ≤ m then 'A' else 'B')

lemma foldl_set_threshold (row : List Char) (h : row.length = BOARD_COLS) (m : Int) :
    (List.range BOARD_COLS).foldl
      (fun r i => r.set i (if (i : Int) ≤ m then 'A' else 'B')) row = thresholdRow m := by
  obtain ⟨a, b, c, d, e, rfl⟩ : ∃ a b c d e, row = [a, b, c, d, e] := by
    rcases row with _ | ⟨a, _ | ⟨b, _ | ⟨c, _ | ⟨d, _ | ⟨e, _ | ⟨f, t⟩⟩⟩⟩⟩⟩ <;>
      first
        | exact ⟨_, _, _, _, _, rfl⟩
        | (exfalso; simp [BOARD_COLS] at h)
  rfl

lemma generate_ascii_board_isSome (board : Board) (wins : Dict)
    (hne : board ≠ [])
    (hA : (dictGet? wins "A").isSome = true) (hB : (dictGet? wins "B").isSome = true)
    (hD : (dictGet? wins "DAYS").isSome = true)
    (hR : (dictGet? wins "RECORD").isSome = true) :
    (generate_ascii_board board wins).isSome = true := by
  obtain ⟨r0, t, rfl⟩ := List.exists_cons_of_ne_nil hne
  obtain ⟨wa, ha⟩ := Option.isSome_iff_exists.mp hA
  obtain ⟨wb, hb⟩ := Option.isSome_iff_exists.mp hB
  obtain ⟨wd, hd⟩ := Option.isSome_iff_exists.mp hD
  obtain ⟨wr, hr⟩ := Option.isSome_iff_exists.mp hR
  simp [generate_ascii_board, ha, hb, hd, hr]

lemma save_state_isSome (wins : Dict) (board : Board)
    (hA : (dictGet? wins "A").isSome = true) (hB : (dictGet? wins "B").isSome = true)
    (hD : (dictGet? wins "DAYS").isSome = true)
    (hR : (dictGet? wins "RECORD").isSome = true) :
    (save_state wins board).isSome = true := by
  obtain ⟨wa, ha⟩ := Option.isSome_iff_exists.mp hA
  obtain ⟨wb, hb⟩ := Option.isSome_iff_exists.mp hB
  obtain ⟨wd, hd⟩ := Option.isSome_iff_exists.mp hD
  obtain ⟨wr, hr⟩ := Option.isSome_iff_exists.mp hR
  simp [save_state, ha, hb, hd, hr]

lemma move_wins_get (wins : Dict) (d0 r0 wa wb : Int)
    (hA : dictGet? wins "A" = some wa) (hB : dictGet? wins "B" = some wb)
    (hR : dictGet? wins "RECORD" = some r0) :
    dictGet? (move_wins wins d0 r0) "A" = some wa ∧
    dictGet? (move_wins wins d0 r0) "B" = some wb ∧
    dictGet? (move_wins wins d0 r0) "DAYS" = some (d0 + 1) ∧
    dictGet? (move_wins wins d0 r0) "RECORD" = some (if r0 < d0 + 1 then d0 + 1 else r0) := by
  unfold move_wins
  by_cases h : r0 < d0 + 1
  · simp only [h, if_true]
    refine ⟨?_, ?_, ?_, ?_⟩
    · rw [dictGet?_insert_ne _ _ _ _ (by decide), dictGet?_insert_ne _ _ _ _ (by decide)]
      exact hA
    · rw [dictGet?_insert_ne _ _ _ _ (by decide), dictGet?_insert_ne _ _ _ _ (by decide)]
      exact hB
    · rw [dictGet?_insert_ne _ _ _ _ (by decide), dictGet?_insert_self]
    · rw [dictGet?_insert_self]
  · simp only [h, if_false]
    refine ⟨?_, ?_, ?_, ?_⟩
    · rw [dictGet?_insert_ne _ _ _ _ (by decide)]
      exact hA
    · rw [dictGet?_insert_ne _ _ _ _ (by decide)]
      exact hB
    · rw [dictGet?_insert_self]
    · rw [dictGet?_insert_ne _ _ _ _ (by decide)]
      exact hR

lemma set_ne_nil (board : Board) (idx : Nat) (x : List Char) (hne : board ≠ []) :
    board.set idx x ≠ [] := by
  obtain ⟨q, t, rfl⟩ := List.exists_cons_of_ne_nil hne
  cases idx <;> simp [List.set]

lemma move_branch_spec (wins : Dict) (board : Board) (idx : Nat) (row : List Char)
    (bd : Int) (dice : Bool) (wa wb d0 r0 : Int)
    (hne : board ≠ [])
    (hwide : row.length = BOARD_COLS)
    (hA : dictGet? wins "A" = some wa) (hB : dictGet? wins "B" = some wb)
    (hD : dictGet? wins "DAYS" = some d0) (hR : dictGet? wins "RECORD" = some r0) :
    ∃ saved out, move_branch wins board idx row bd dice =
        some (move_wins wins d0 r0,
          board.set idx (thresholdRow (clampedBoundary bd dice)), saved, out) ∧
      save_state (move_wins wins d0 r0)
        (board.set idx (thresholdRow (clampedBoundary bd dice))) = some saved := by
  obtain ⟨gA, gB, gD, gR⟩ := move_wins_get wins d0 r0 wa wb hA hB hR
  have hB2ne : board.set idx (thresholdRow (clampedBoundary bd dice)) ≠ [] :=
    set_ne_nil board idx _ hne
  have hg := generate_ascii_board_isSome _ (move_wins wins d0 r0) hB2ne
    (by simp [gA]) (by simp [gB]) (by simp [gD]) (by simp [gR])
  obtain ⟨s1, hs1⟩ := Option.isSome_iff_exists.mp hg
  have hsv := save_state_isSome (move_wins wins d0 r0)
    (board.set idx (thresholdRow (clampedBoundary bd dice)))
    (by simp [gA]) (by simp [gB]) (by simp [gD]) (by simp [gR])
  obtain ⟨sv, hsv'⟩ := Option.isSome_iff_exists.mp hsv
  refine ⟨sv, s1, ?_, hsv'⟩
  have hw1D : dictGet? (dictInsert wins "DAYS" (d0 + 1)) "DAYS" = some (d0 + 1) :=
    dictGet?_insert_self _ _ _
  have hw1R : dictGet? (dictInsert wins "DAYS" (d0 + 1)) "RECORD" = some r0 := by
    rw [dictGet?_insert_ne _ _ _ _ (by decide)]
    exact hR
  have hfold := foldl_set_threshold row hwide (clampedBoundary bd dice)
  simp only [move_wins, clampedBoundary, thresholdRow] at hs1 hsv' hfold
  simp only [move_branch, Option.bind_eq_bind', hD, Option.some_bind', hw1D, hw1R,
    hfold, hs1, hsv', move_wins]
  rfl

/-- The counters after a win by `winner`: the winner's tally incremented, the
`DAYS` counter reset to 0. -/
def win_wins (wins : Dict) (winner : String) (w : Int) : Dict :=
  dictInsert (dictInsert wins winner (w + 1)) "DAYS" 0

lemma win_wins_get_A (wins : Dict) (wa wb rr : Int)
    (hA : dictGet? wins "A" = some wa) (hB : dictGet? wins "B" = some wb)
    (hR : dictGet? wins "RECORD" = some rr) :
    dictGet? (win_wins wins "A" wa) "A" = some (wa + 1) ∧
    dictGet? (win_wins wins "A" wa) "B" = some wb ∧
    dictGet? (win_wins wins "A" wa) "DAYS" = some 0 ∧
    dictGet? (win_wins wins "A" wa) "RECORD" = some rr := by
  unfold win_wins
  refine ⟨?_, ?_, dictGet?_insert_self _ _ _, ?_⟩
  · rw [dictGet?_insert_ne _ _ _ _ (by decide), dictGet?_insert_self]
  · rw [dictGet?_insert_ne _ _ _ _ (by decide), dictGet?_insert_ne _ _ _ _ (by decide)]
    exact hB
  · rw [dictGet?_insert_ne _ _ _ _ (by decide), dictGet?_insert_ne _ _ _ _ (by decide)]
    exact hR

lemma win_wins_get_B (wins : Dict) (wa wb rr : Int)
    (hA : dictGet? wins "A" = some wa) (hB : dictGet? wins "B" = some wb)
    (hR : dictGet? wins "RECORD" = some rr) :
    dictGet? (win_wins wins "B" wb) "A" = some wa ∧
    dictGet? (win_wins wins "B" wb) "B" = some (wb + 1) ∧
    dictGet? (win_wins wins "B" wb) "DAYS" = some 0 ∧
    dictGet? (win_wins wins "B" wb) "RECORD" = some rr := by
  unfold win_wins
  refine ⟨?_, ?_, dictGet?_insert_self _ _ _, ?_⟩
  · rw [dictGet?_insert_ne _ _ _ _ (by decide), dictGet?_insert_ne _ _ _ _ (by decide)]
    exact hA
  · rw [dictGet?_insert_ne _ _ _ _ (by decide), dictGet?_insert_self]
  · rw [dictGet?_insert_ne _ _ _ _ (by decide), dictGet?_insert_ne _ _ _ _ (by decide)]
    exact hR

lemma win_branch_spec (wins : Dict) (board : Board) (idx : Nat) (winner : String) (w : Int)
    (hne : board ≠ [])
    (hW : dictGet? wins winner = some w)
    (hA : (dictGet? wins "A").isSome = true) (hB : (dictGet? wins "B").isSome = true)
    (hD : (dictGet? wins "DAYS").isSome = true) (hR : (dictGet? wins "RECORD").isSome = true)
    (h2A : (dictGet? (win_wins wins winner w) "A").isSome = true)
    (h2B : (dictGet? (win_wins wins winner w) "B").isSome = true)
    (h2D : (dictGet? (win_wins wins winner w) "DAYS").isSome = true)
    (h2R : (dictGet? (win_wins wins winner w) "RECORD").isSome = true) :
    ∃ saved out, win_branch wins board idx winner =
        some (win_wins wins winner w, create_initial_board, saved, out) ∧
      save_state (win_wins wins winner w) create_initial_board = some saved := by
  obtain ⟨s1, hs1⟩ := Option.isSome_iff_exists.mp
    (generate_ascii_board_isSome board wins hne hA hB hD hR)
  obtain ⟨s2, hs2⟩ := Option.isSome_iff_exists.mp
    (generate_ascii_board_isSome create_initial_board (win_wins wins winner w)
      (by decide) h2A h2B h2D h2R)
  obtain ⟨sv, hsv'⟩ := Option.isSome_iff_exists.mp
    (save_state_isSome (win_wins wins winner w) create_initial_board h2A h2B h2D h2R)
  refine ⟨sv, ("Faction " ++ winner ++ " wins on row " ++ intToDecimal ((idx : Int) + 1) ++ "!") ++
    "\n\nFinal board state:\n" ++ s1 ++ "\n\nBoard reset to initial state:\n" ++ s2, ?_, hsv'⟩
  simp only [win_wins] at hs2 hsv'
  simp only [win_branch, Option.bind_eq_bind', hs1, Option.some_bind', hW, hs2, hsv',
    win_wins]

lemma simulate_battle_eq_win (wins : Dict) (board : Board) (idx : Nat) (dice : Bool)
    (row : List Char) (hget : board.get? idx = some row)
    (hw : rowBoundary row = (BOARD_COLS : Int) - 1 ∨ rowBoundary row = -1) :
    simulate_battle wins board idx dice =
      win_branch wins board idx
        (if rowBoundary row = (BOARD_COLS : Int) - 1 then "A" else "B") := by
  simp only [simulate_battle, Option.bind_eq_bind', hget, Option.some_bind']
  rw [if_pos hw]

lemma simulate_battle_eq_move (wins : Dict) (board : Board) (idx : Nat) (dice : Bool)
    (row : List Char) (hget : board.get? idx = some row)
    (hnw : ¬(rowBoundary row = (BOARD_COLS : Int) - 1 ∨ rowBoundary row = -1)) :
    simulate_battle wins board idx dice =
      move_branch wins board idx row (rowBoundary row) dice := by
  simp only [simulate_battle, Option.bind_eq_bind', hget, Option.some_bind']
  rw [if_neg hnw]

lemma win_branch_inv (wins : Dict) (board : Board) (idx : Nat) (winner : String)
    (res : Dict × Board × String × String)
    (h : win_branch wins board idx winner = some res) :
    ∃ w, dictGet? wins winner = some w ∧
      res.1 = win_wins wins winner w ∧ res.2.1 = create_initial_board := by
  simp only [win_branch, Option.bind_eq_bind', Option.bind_eq_some'] at h
  obtain ⟨s1, hs1, w, hw, s2, hs2, sv, hsv, hfin⟩ := h
  refine ⟨w, hw, ?_, ?_⟩ <;>
    simp only [Option.some.injEq] at hfin <;> rw [← hfin] <;> rfl

lemma move_branch_inv (wins : Dict) (board : Board) (idx : Nat) (row : List Char)
    (bd : Int) (dice : Bool) (res : Dict × Board × String × String)
    (h : move_branch wins board idx row bd dice = some res) :
    ∃ d0 r0, dictGet? wins "DAYS" = some d0 ∧ dictGet? wins "RECORD" = some r0 ∧
      res.1 = move_wins wins d0 r0 ∧
      res.2.1 = board.set idx ((List.range BOARD_COLS).foldl
        (fun r i => r.set i (if (i : Int) ≤ clampedBoundary bd dice then 'A' else 'B')) row) := by
  simp only [move_branch, Option.bind_eq_bind', Option.bind_eq_some'] at h
  obtain ⟨d0, hd0, cur, hcur, rec0, hrec, s1, hs1, sv, hsv, hfin⟩ := h
  rw [dictGet?_insert_self] at hcur
  rw [dictGet?_insert_ne _ _ _ _ (by decide)] at hrec
  have hc : cur = d0 + 1 := by injection hcur.symm
  subst hc
  refine ⟨d0, rec0, hd0, hrec, ?_, ?_⟩ <;>
    simp only [Option.some.injEq] at hfin <;> rw [← hfin] <;>
      simp only [move_wins, clampedBoundary] <;> rfl

lemma clampedBoundary_lb (bd : Int) (dice : Bool) : -1 ≤ clampedBoundary bd dice :=
  le_min (le_max_right _ _) (by norm_num [BOARD_COLS])

lemma clampedBoundary_ub (bd : Int) (dice : Bool) :
    clampedBoundary bd dice ≤ (BOARD_COLS : Int) - 1 :=
  min_le_right _ _

lemma thresholdRow_wellFormed (m : Int) (h1 : -1 ≤ m) (h2 : m ≤ (BOARD_COLS : Int) - 1) :
    rowWellFormed (thresholdRow m) := by
  have h2' : m ≤ 4 := by
    have : ((BOARD_COLS : Nat) : Int) - 1 = 4 := by norm_num [BOARD_COLS]
    omega
  interval_cases m
  · exact ⟨0, by decide, by decide⟩
  · exact ⟨1, by decide, by decide⟩
  · exact ⟨2, by decide, by decide⟩
  · exact ⟨3, by decide, by decide⟩
  · exact ⟨4, by decide, by decide⟩
  · exact ⟨5, by decide, by decide⟩

lemma create_initial_board_wellFormed : ∀ row ∈ create_initial_board, rowWellFormed row := by
  intro row h
  have e : create_initial_board =
      [['A', 'A', 'A', 'B', 'B'], ['A', 'A', 'A', 'B', 'B'], ['A', 'A', 'A', 'B', 'B'],
       ['A', 'A', 'B', 'B', 'B'], ['A', 'A', 'B', 'B', 'B'], ['A', 'A', 'B', 'B', 'B']] := rfl
  rw [e] at h
  simp only [List.mem_cons, List.not_mem_nil, or_false] at h
  rcases h with rfl | rfl | rfl | rfl | rfl | rfl
  · exact ⟨3, by decide, by decide⟩
  · exact ⟨3, by decide, by decide⟩
  · exact ⟨3, by decide, by decide⟩
  · exact ⟨2, by decide, by decide⟩
  · exact ⟨2, by decide, by decide⟩
  · exact ⟨2, by decide, by decide⟩

lemma rowWellFormed_length (row : List Char) (h : rowWellFormed row) :
    row.length = BOARD_COLS := by
  obtain ⟨k, hk, rfl⟩ := h
  simp [List.length_replicate]
  omega

/-! ### The claims -/

/-- C1 (counterexample): for the 5-cell row `BAAAA` the boundary (index of the
last `A`-cell) is the last column index 4, yet `is_row_uniform` is false, so
without a contiguity assumption the claimed equivalence fails. -/
theorem c1_counterexample :
    ¬(is_row_uniform ['B', 'A', 'A', 'A', 'A'] = true ↔
        (rowBoundary ['B', 'A', 'A', 'A', 'A'] = -1 ∨
         rowBoundary ['B', 'A', 'A', 'A', 'A'] = (BOARD_COLS : Int) - 1)) := by
  decide

/-- C1 (amended): for every grid row satisfying the data model's
single-boundary invariant (a contiguous prefix of `A`-cells followed by a
contiguous suffix of `B`-cells), `is_row_uniform` returns true if and only if
the row's boundary equals `-1` or the last column index 4. -/
theorem c1_uniform_iff_boundary_edge (row : List Char) (h : rowWellFormed row) :
    is_row_uniform row = true ↔
      (rowBoundary row = -1 ∨ rowBoundary row = (BOARD_COLS : Int) - 1) := by
  obtain ⟨k, hk, rfl⟩ := h
  have hk5 : k ≤ 5 := hk
  interval_cases k <;> decide

/-- Witness for C1: the default biased row `AAABB` satisfies the invariant and
the equivalence (both sides false there). -/
theorem c1_uniform_iff_boundary_edge_witness :
    rowWellFormed ['A', 'A', 'A', 'B', 'B'] ∧
    (is_row_uniform ['A', 'A', 'A', 'B', 'B'] = true ↔
      (rowBoundary ['A', 'A', 'A', 'B', 'B'] = -1 ∨
       rowBoundary ['A', 'A', 'A', 'B', 'B'] = (BOARD_COLS : Int) - 1)) :=
  ⟨⟨3, by decide, by decide⟩,
    c1_uniform_iff_boundary_edge ['A', 'A', 'A', 'B', 'B'] ⟨3, by decide, by decide⟩⟩

/-- C2 (counterexample): a grid cell may be any single character per the claim,
but a newline cell breaks the round trip: saving a board whose first row is
`A`, `\n`, `A`, `A`, `A` produces a file whose first grid line has width 1, so
loading falls back to the default state instead of the saved one. -/
theorem c2_counterexample :
    save_state (mkWins 0 0 0 0)
        [['A', '\n', 'A', 'A', 'A'], ['A', 'A', 'A', 'B', 'B'], ['A', 'A', 'A', 'B', 'B'],
         ['A', 'A', 'B', 'B', 'B'], ['A', 'A', 'B', 'B', 'B'], ['A', 'A', 'B', 'B', 'B']]
      = some "WINS A:0 B:0 DAYS:0 RECORD:0\nA\nAAA\nAAABB\nAAABB\nAABBB\nAABBB\nAABBB\n" ∧
    load_state "WINS A:0 B:0 DAYS:0 RECORD:0\nA\nAAA\nAAABB\nAAABB\nAABBB\nAABBB\nAABBB\n"
      ≠ (mkWins 0 0 0 0,
        [['A', '\n', 'A', 'A', 'A'], ['A', 'A', 'A', 'B', 'B'], ['A', 'A', 'A', 'B', 'B'],
         ['A', 'A', 'B', 'B', 'B'], ['A', 'A', 'B', 'B', 'B'], ['A', 'A', 'B', 'B', 'B']]) := by
  constructor
  · decide
  · decide

/-- C2 (amended): for every counters mapping over the keys `A`, `B`, `DAYS`,
`RECORD` with integer values, and every 6×5 grid of single characters none of
which is a newline or carriage return, saving and then loading yields exactly
the saved counters and grid. -/
theorem c2_save_load_roundtrip (a b d r : Int) (board : Board)
    (hlen : board.length = BOARD_ROWS)
    (hwide : ∀ row ∈ board, row.length = BOARD_COLS)
    (hchar : ∀ row ∈ board, ∀ c ∈ row, c ≠ '\n' ∧ c ≠ '\r') :
    ∃ content, save_state (mkWins a b d r) board = some content ∧
      load_state content = (mkWins a b d r, board) :=
  ⟨_, rfl, load_state_save a b d r board hlen hwide hchar⟩

/-- Witness for C2: the default board with counters 3, 2, 1, 4 round-trips. -/
theorem c2_save_load_roundtrip_witness :
    create_initial_board.length = BOARD_ROWS ∧
    (∀ row ∈ create_initial_board, row.length = BOARD_COLS) ∧
    (∀ row ∈ create_initial_board, ∀ c ∈ row, c ≠ '\n' ∧ c ≠ '\r') ∧
    ∃ content, save_state (mkWins 3 2 1 4) create_initial_board = some content ∧
      load_state content = (mkWins 3 2 1 4, create_initial_board) :=
  ⟨by decide, by decide, by decide,
    c2_save_load_roundtrip 3 2 1 4 create_initial_board (by decide) (by decide) (by decide)⟩

/-- C3 (counterexample): a state file with 8 lines has a wrong line count
(the format prescribes exactly 7), yet `load_state` does not fall back to the
default state: it parses the first 7 lines and ignores the junk line. -/
theorem c3_counterexample :
    (pyLines ("WINS A:1 B:0 DAYS:0 RECORD:0\nAAAAA\nAAAAA\nAAAAA\nAAAAA\nAAAAA\nAAAAA\nJUNK" : String).data).length
        ≠ 1 + BOARD_ROWS ∧
    load_state "WINS A:1 B:0 DAYS:0 RECORD:0\nAAAAA\nAAAAA\nAAAAA\nAAAAA\nAAAAA\nAAAAA\nJUNK"
        ≠ default_state := by
  constructor
  · decide
  · decide

/-- C3 (amended): `load_state` returns the fresh default state, silently, on
each of the structural mismatches the code detects: fewer lines than the 1 +
6 required, a grid row (among the 6 read) whose width is not 5 characters, or
a counter token on the first line that does not parse as `key:int`.  (A file
with extra trailing lines is not detected: the extra lines are ignored.) -/
theorem c3_malformed_defaults (content : String) :
    ((pyLines content.data).length < 1 + BOARD_ROWS → load_state content = default_state) ∧
    ((∃ l ∈ ((pyLines content.data).drop 1).take BOARD_ROWS, l.length ≠ BOARD_COLS) →
      load_state content = default_state) ∧
    ((∃ p ∈ (pySplitWs ((pyLines content.data).headD "").data).tail,
        ∀ k cnt, splitOnChar ':' p.data = [k, cnt] → parsePyInt cnt = none) →
      load_state content = default_state) := by
  unfold load_state
  refine ⟨?_, ?_, ?_⟩
  · intro h
    unfold load_lines
    rw [if_pos h]
  · intro h
    by_cases hs : (pyLines content.data).length < 1 + BOARD_ROWS
    · unfold load_lines
      rw [if_pos hs]
    · unfold load_lines
      rw [if_neg hs]
      rcases hmatch : parseWinsTokens (pySplitWs ((pyLines content.data).headD "").data).tail []
        with _ | w0
      · rfl
      · have hany : (((pyLines content.data).drop 1).take BOARD_ROWS).any
            (fun l => l.length != BOARD_COLS) = true := by
          rcases h with ⟨l, hl, hne⟩
          exact List.any_eq_true.mpr ⟨l, hl, by simpa using hne⟩
        simp only [hany, if_true]
  · intro h
    by_cases hs : (pyLines content.data).length < 1 + BOARD_ROWS
    · unfold load_lines
      rw [if_pos hs]
    · unfold load_lines
      rw [if_neg hs, parseWinsTokens_none _ [] h]

/-- Witness for C3: a too-short file, a file with a 4-character grid row, and a
file with the unparsable counter token `A:x` all load as the default state. -/
theorem c3_malformed_defaults_witness :
    load_state "short" = default_state ∧
    load_state "WINS A:1 B:0 DAYS:0 RECORD:0\nAAAA\nAAAAA\nAAAAA\nAAAAA\nAAAAA\nAAAAA"
      = default_state ∧
    load_state "WINS A:x B:0 DAYS:0 RECORD:0\nAAAAA\nAAAAA\nAAAAA\nAAAAA\nAAAAA\nAAAAA"
      = default_state :=
  ⟨(c3_malformed_defaults "short").1 (by decide),
   (c3_malformed_defaults
      "WINS A:1 B:0 DAYS:0 RECORD:0\nAAAA\nAAAAA\nAAAAA\nAAAAA\nAAAAA\nAAAAA").2.1
     ⟨"AAAA", by decide, by decide⟩,
   (c3_malformed_defaults
      "WINS A:x B:0 DAYS:0 RECORD:0\nAAAAA\nAAAAA\nAAAAA\nAAAAA\nAAAAA\nAAAAA").2.2
     ⟨"A:x", by decide, by
       intro k cnt h
       have e : splitOnChar ':' ("A:x" : String).data = ["A", "x"] := by decide
       rw [e] at h
       injection h with h1 h2
       injection h2 with h3 _
       rw [← h3]
       decide⟩⟩

/-- C4: whenever the chosen row's boundary equals the last column index 4,
faction A wins, and whenever it equals -1, faction B wins; on a win,
`simulate_battle` increments exactly the winner's tally by 1, resets the
`DAYS` counter to 0, resets the grid to the default biased grid (rows 0-2
`AAABB`, rows 3-5 `AABBB`), and saves that state (`saved` is the file content
written). -/
theorem c4_win_branch (wins : Dict) (board : Board) (idx : Nat) (dice : Bool)
    (row : List Char) (wa wb dd rr : Int) (W' : Dict) (B' : Board) (saved out : String)
    (hget : board.get? idx = some row)
    (hA : dictGet? wins "A" = some wa) (hB : dictGet? wins "B" = some wb)
    (hD : dictGet? wins "DAYS" = some dd) (hR : dictGet? wins "RECORD" = some rr)
    (hwin : rowBoundary row = (BOARD_COLS : Int) - 1 ∨ rowBoundary row = -1)
    (hres : simulate_battle wins board idx dice = some (W', B', saved, out)) :
    B' = create_initial_board ∧
    B' = [['A', 'A', 'A', 'B', 'B'], ['A', 'A', 'A', 'B', 'B'], ['A', 'A', 'A', 'B', 'B'],
          ['A', 'A', 'B', 'B', 'B'], ['A', 'A', 'B', 'B', 'B'], ['A', 'A', 'B', 'B', 'B']] ∧
    dictGet? W' "DAYS" = some 0 ∧
    save_state W' B' = some saved ∧
    (rowBoundary row = (BOARD_COLS : Int) - 1 →
      dictGet? W' "A" = some (wa + 1) ∧ dictGet? W' "B" = some wb) ∧
    (rowBoundary row = -1 →
      dictGet? W' "A" = some wa ∧ dictGet? W' "B" = some (wb + 1)) := by
  have hne : board ≠ [] := by
    rintro rfl
    simp at hget
  have h4m1 : ((BOARD_COLS : Nat) : Int) - 1 ≠ -1 := by decide
  rw [simulate_battle_eq_win wins board idx dice row hget hwin] at hres
  rcases hwin with hb | hb
  · rw [if_pos hb] at hres
    obtain ⟨gA, gB, gD, gR⟩ := win_wins_get_A wins wa wb rr hA hB hR
    obtain ⟨sv, o, heq, hsave⟩ := win_branch_spec wins board idx "A" wa hne hA
      (by simp [hA]) (by simp [hB]) (by simp [hD]) (by simp [hR])
      (by simp [gA]) (by simp [gB]) (by simp [gD]) (by simp [gR])
    rw [heq] at hres
    simp only [Option.some.injEq, Prod.mk.injEq] at hres
    obtain ⟨hW, hBd, hsv, ho⟩ := hres
    subst hW
    subst hBd
    subst hsv
    refine ⟨rfl, rfl, gD, hsave, fun _ => ⟨gA, gB⟩, fun hcon => ?_⟩
    rw [hb] at hcon
    exact absurd hcon h4m1
  · rw [if_neg (by rw [hb]; exact fun hcon => h4m1 hcon.symm)] at hres
    obtain ⟨gA, gB, gD, gR⟩ := win_wins_get_B wins wa wb rr hA hB hR
    obtain ⟨sv, o, heq, hsave⟩ := win_branch_spec wins board idx "B" wb hne hB
      (by simp [hA]) (by simp [hB]) (by simp [hD]) (by simp [hR])
      (by simp [gA]) (by simp [gB]) (by simp [gD]) (by simp [gR])
    rw [heq] at hres
    simp only [Option.some.injEq, Prod.mk.injEq] at hres
    obtain ⟨hW, hBd, hsv, ho⟩ := hres
    subst hW
    subst hBd
    subst hsv
    refine ⟨rfl, rfl, gD, hsave, fun hcon => ?_, fun _ => ⟨gA, gB⟩⟩
    rw [hb] at hcon
    exact absurd hcon.symm h4m1

/-- Witness for C4: on a board whose first row is all `A` (boundary 4), one
step on that row makes faction A win: the board resets and A's tally goes from
2 to 3 while B's stays 3 and `DAYS` resets to 0. -/
theorem c4_win_branch_witness :
    (simulate_battle (mkWins 2 3 5 7)
        [['A', 'A', 'A', 'A', 'A'], ['A', 'A', 'A', 'B', 'B'], ['A', 'A', 'A', 'B', 'B'],
         ['A', 'A', 'B', 'B', 'B'], ['A', 'A', 'B', 'B', 'B'], ['A', 'A', 'B', 'B', 'B']]
        0 false).map
      (fun res => (res.2.1, dictGet? res.1 "A", dictGet? res.1 "B", dictGet? res.1 "DAYS"))
    = some (create_initial_board, some 3, some 3, some 0) := by
  have hres : simulate_battle (mkWins 2 3 5 7)
      [['A', 'A', 'A', 'A', 'A'], ['A', 'A', 'A', 'B', 'B'], ['A', 'A', 'A', 'B', 'B'],
       ['A', 'A', 'B', 'B', 'B'], ['A', 'A', 'B', 'B', 'B'], ['A', 'A', 'B', 'B', 'B']]
      0 false
      = some (((simulate_battle (mkWins 2 3 5 7)
          [['A', 'A', 'A', 'A', 'A'], ['A', 'A', 'A', 'B', 'B'], ['A', 'A', 'A', 'B', 'B'],
           ['A', 'A', 'B', 'B', 'B'], ['A', 'A', 'B', 'B', 'B'], ['A', 'A', 'B', 'B', 'B']]
          0 false).getD ([], [], "", "")).1,
        ((simulate_battle (mkWins 2 3 5 7)
          [['A', 'A', 'A', 'A', 'A'], ['A', 'A', 'A', 'B', 'B'], ['A', 'A', 'A', 'B', 'B'],
           ['A', 'A', 'B', 'B', 'B'], ['A', 'A', 'B', 'B', 'B'], ['A', 'A', 'B', 'B', 'B']]
          0 false).getD ([], [], "", "")).2.1,
        ((simulate_battle (mkWins 2 3 5 7)
          [['A', 'A', 'A', 'A', 'A'], ['A', 'A', 'A', 'B', 'B'], ['A', 'A', 'A', 'B', 'B'],
           ['A', 'A', 'B', 'B', 'B'], ['A', 'A', 'B', 'B', 'B'], ['A', 'A', 'B', 'B', 'B']]
          0 false).getD ([], [], "", "")).2.2.1,
        ((simulate_battle (mkWins 2 3 5 7)
          [['A', 'A', 'A', 'A', 'A'], ['A', 'A', 'A', 'B', 'B'], ['A', 'A', 'A', 'B', 'B'],
           ['A', 'A', 'B', 'B', 'B'], ['A', 'A', 'B', 'B', 'B'], ['A', 'A', 'B', 'B', 'B']]
          0 false).getD ([], [], "", "")).2.2.2) := by rfl
  have main := c4_win_branch (mkWins 2 3 5 7)
    [['A', 'A', 'A', 'A', 'A'], ['A', 'A', 'A', 'B', 'B'], ['A', 'A', 'A', 'B', 'B'],
     ['A', 'A', 'B', 'B', 'B'], ['A', 'A', 'B', 'B', 'B'], ['A', 'A', 'B', 'B', 'B']]
    0 false ['A', 'A', 'A', 'A', 'A'] 2 3 5 7 _ _ _ _
    rfl rfl rfl rfl rfl (Or.inl (by decide)) hres
  rw [hres]
  simp only [Option.map_some']
  rw [main.1, (main.2.2.2.2.1 (by decide)).1, (main.2.2.2.2.1 (by decide)).2, main.2.2.1]
  rfl

/-- C5: whenever the chosen row's boundary is neither -1 nor the last column
index, `simulate_battle` increments the `DAYS` counter by 1, raises `RECORD`
to the new `DAYS` value if it then exceeds it, moves the boundary by +1 or -1
according to the coin flip, clamps the result to `[-1, 4]`, rewrites the
chosen row so every cell at an index ≤ the new boundary is `A` and every other
cell is `B`, leaves the tallies unchanged, and saves the state (`saved` is the
file content written). -/
theorem c5_move_branch (wins : Dict) (board : Board) (idx : Nat) (dice : Bool)
    (row : List Char) (wa wb d0 r0 : Int) (W' : Dict) (B' : Board) (saved out : String)
    (hget : board.get? idx = some row)
    (hwide : row.length = BOARD_COLS)
    (hA : dictGet? wins "A" = some wa) (hB : dictGet? wins "B" = some wb)
    (hD : dictGet? wins "DAYS" = some d0) (hR : dictGet? wins "RECORD" = some r0)
    (hnw : ¬(rowBoundary row = (BOARD_COLS : Int) - 1 ∨ rowBoundary row = -1))
    (hres : simulate_battle wins board idx dice = some (W', B', saved, out)) :
    dictGet? W' "DAYS" = some (d0 + 1) ∧
    dictGet? W' "RECORD" = some (if r0 < d0 + 1 then d0 + 1 else r0) ∧
    dictGet? W' "A" = some wa ∧ dictGet? W' "B" = some wb ∧
    B' = board.set idx (thresholdRow (clampedBoundary (rowBoundary row) dice)) ∧
    save_state W' B' = some saved := by
  have hne : board ≠ [] := by
    rintro rfl
    simp at hget
  rw [simulate_battle_eq_move wins board idx dice row hget hnw] at hres
  obtain ⟨gA, gB, gD, gR⟩ := move_wins_get wins d0 r0 wa wb hA hB hR
  obtain ⟨sv, o, heq, hsave⟩ :=
    move_branch_spec wins board idx row (rowBoundary row) dice wa wb d0 r0 hne hwide hA hB hD hR
  rw [heq] at hres
  simp only [Option.some.injEq, Prod.mk.injEq] at hres
  obtain ⟨hW, hBd, hsv, ho⟩ := hres
  subst hW
  subst hBd
  subst hsv
  exact ⟨gD, gR, gA, gB, rfl, hsave⟩

/-- Witness for C5: the default state with row 0 (`AAABB`, boundary 2) and a
heads coin flip moves the boundary to 3 (row becomes `AAAAB`), sets `DAYS` to
1 and `RECORD` to 1. -/
theorem c5_move_branch_witness :
    (simulate_battle default_state.1 default_state.2 0 true).map
      (fun res => (res.2.1, dictGet? res.1 "DAYS", dictGet? res.1 "RECORD",
        dictGet? res.1 "A", dictGet? res.1 "B"))
    = some ([['A', 'A', 'A', 'A', 'B'], ['A', 'A', 'A', 'B', 'B'], ['A', 'A', 'A', 'B', 'B'],
        ['A', 'A', 'B', 'B', 'B'], ['A', 'A', 'B', 'B', 'B'], ['A', 'A', 'B', 'B', 'B']],
        some 1, some 1, some 0, some 0) := by
  have hres : simulate_battle default_state.1 default_state.2 0 true
      = some (((simulate_battle default_state.1 default_state.2 0 true).getD ([], [], "", "")).1,
        ((simulate_battle default_state.1 default_state.2 0 true).getD ([], [], "", "")).2.1,
        ((simulate_battle default_state.1 default_state.2 0 true).getD ([], [], "", "")).2.2.1,
        ((simulate_battle default_state.1 default_state.2 0 true).getD ([], [], "", "")).2.2.2) := by
    rfl
  have main := c5_move_branch default_state.1 default_state.2 0 true
    ['A', 'A', 'A', 'B', 'B'] 0 0 0 0 _ _ _ _
    rfl rfl rfl rfl rfl rfl (by decide) hres
  rw [hres]
  simp only [Option.map_some']
  rw [main.1, main.2.1, main.2.2.1, main.2.2.2.1, main.2.2.2.2.1]
  rfl

/-- C6: the battle step preserves the single-boundary row invariant: if every
row of the loaded board is a contiguous prefix of `A`-cells followed by a
contiguous suffix of `B`-cells, then every row of the board saved by
`simulate_battle` — in both the win branch and the non-win branch — also
satisfies that invariant. -/
theorem c6_invariant_preserved (wins : Dict) (board : Board) (idx : Nat) (dice : Bool)
    (W' : Dict) (B' : Board) (saved out : String)
    (hwf : ∀ row ∈ board, rowWellFormed row)
    (hres : simulate_battle wins board idx dice = some (W', B', saved, out)) :
    ∀ row ∈ B', rowWellFormed row := by
  rcases hget : board.get? idx with _ | row
  · simp only [simulate_battle, Option.bind_eq_bind', hget, Option.none_bind'] at hres
    exact Option.noConfusion hres
  · by_cases hwin : rowBoundary row = (BOARD_COLS : Int) - 1 ∨ rowBoundary row = -1
    · rw [simulate_battle_eq_win wins board idx dice row hget hwin] at hres
      obtain ⟨w, hw, hW, hBd⟩ := win_branch_inv _ _ _ _ _ hres
      have hBd' : B' = create_initial_board := hBd
      intro r hr
      rw [hBd'] at hr
      exact create_initial_board_wellFormed r hr
    · rw [simulate_battle_eq_move wins board idx dice row hget hwin] at hres
      obtain ⟨d0, r0, hd0, hr0, hW, hBd⟩ := move_branch_inv _ _ _ _ _ _ _ hres
      have hrow : rowWellFormed row := hwf row (List.get?_mem hget)
      have hwide := rowWellFormed_length row hrow
      have hBd' : B' = board.set idx ((List.range BOARD_COLS).foldl
          (fun r i => r.set i
            (if (i : Int) ≤ clampedBoundary (rowBoundary row) dice then 'A' else 'B')) row) := hBd
      rw [foldl_set_threshold row hwide (clampedBoundary (rowBoundary row) dice)] at hBd'
      intro r hr
      rw [hBd'] at hr
      rcases List.mem_or_eq_of_mem_set hr with hmem | rfl
      · exact hwf r hmem
      · exact thresholdRow_wellFormed _ (clampedBoundary_lb _ _) (clampedBoundary_ub _ _)

/-- Witness for C6: one step from the default state yields a board whose six
rows all satisfy the single-boundary invariant. -/
theorem c6_invariant_preserved_witness :
    List.Forall rowWellFormed
      ((simulate_battle default_state.1 default_state.2 0 true).getD ([], [], "", "")).2.1 := by
  have hres : simulate_battle default_state.1 default_state.2 0 true
      = some (((simulate_battle default_state.1 default_state.2 0 true).getD ([], [], "", "")).1,
        ((simulate_battle default_state.1 default_state.2 0 true).getD ([], [], "", "")).2.1,
        ((simulate_battle default_state.1 default_state.2 0 true).getD ([], [], "", "")).2.2.1,
        ((simulate_battle default_state.1 default_state.2 0 true).getD ([], [], "", "")).2.2.2) := by
    rfl
  exact List.forall_iff_forall_mem.mpr
    (c6_invariant_preserved _ _ 0 true _ _ _ _ create_initial_board_wellFormed hres)

/-- C7: after the non-win branch updates the counters, the `DAYS` counter is
less than or equal to the `RECORD` counter. -/
theorem c7_days_le_record (wins : Dict) (board : Board) (idx : Nat) (dice : Bool)
    (row : List Char) (W' : Dict) (B' : Board) (saved out : String)
    (hget : board.get? idx = some row)
    (hnw : ¬(rowBoundary row = (BOARD_COLS : Int) - 1 ∨ rowBoundary row = -1))
    (hres : simulate_battle wins board idx dice = some (W', B', saved, out)) :
    ∃ dd rr, dictGet? W' "DAYS" = some dd ∧ dictGet? W' "RECORD" = some rr ∧ dd ≤ rr := by
  rw [simulate_battle_eq_move wins board idx dice row hget hnw] at hres
  obtain ⟨d0, r0, hd0, hr0, hW, hBd⟩ := move_branch_inv _ _ _ _ _ _ _ hres
  have hW' : W' = move_wins wins d0 r0 := hW
  by_cases hc : r0 < d0 + 1
  · refine ⟨d0 + 1, d0 + 1, ?_, ?_, le_refl _⟩
    · rw [hW']
      unfold move_wins
      rw [if_pos hc, dictGet?_insert_ne _ _ _ _ (by decide), dictGet?_insert_self]
    · rw [hW']
      unfold move_wins
      rw [if_pos hc, dictGet?_insert_self]
  · refine ⟨d0 + 1, r0, ?_, ?_, by omega⟩
    · rw [hW']
      unfold move_wins
      rw [if_neg hc, dictGet?_insert_self]
    · rw [hW']
      unfold move_wins
      rw [if_neg hc, dictGet?_insert_ne _ _ _ _ (by decide)]
      exact hr0

/-- Witness for C7: one non-win step from the default state yields counters
with `DAYS` ≤ `RECORD` (both become 1). -/
theorem c7_days_le_record_witness :
    ∃ dd rr,
      dictGet? ((simulate_battle default_state.1 default_state.2 0 true).getD ([], [], "", "")).1
          "DAYS" = some dd ∧
      dictGet? ((simulate_battle default_state.1 default_state.2 0 true).getD ([], [], "", "")).1
          "RECORD" = some rr ∧
      dd ≤ rr := by
  have hres : simulate_battle default_state.1 default_state.2 0 true
      = some (((simulate_battle default_state.1 default_state.2 0 true).getD ([], [], "", "")).1,
        ((simulate_battle default_state.1 default_state.2 0 true).getD ([], [], "", "")).2.1,
        ((simulate_battle default_state.1 default_state.2 0 true).getD ([], [], "", "")).2.2.1,
        ((simulate_battle default_state.1 default_state.2 0 true).getD ([], [], "", "")).2.2.2) := by
    rfl
  exact c7_days_le_record default_state.1 default_state.2 0 true ['A', 'A', 'A', 'B', 'B']
    _ _ _ _ rfl (by decide) hres

/-- C8: the win branch leaves the `RECORD` counter and the losing faction's
win tally unchanged; among the counters only the winner's tally and the `DAYS`
counter are modified. -/
theorem c8_win_frame (wins : Dict) (board : Board) (idx : Nat) (dice : Bool)
    (row : List Char) (W' : Dict) (B' : Board) (saved out : String)
    (hget : board.get? idx = some row)
    (hwin : rowBoundary row = (BOARD_COLS : Int) - 1 ∨ rowBoundary row = -1)
    (hres : simulate_battle wins board idx dice = some (W', B', saved, out)) :
    dictGet? W' "RECORD" = dictGet? wins "RECORD" ∧
    (rowBoundary row = (BOARD_COLS : Int) - 1 → dictGet? W' "B" = dictGet? wins "B") ∧
    (rowBoundary row = -1 → dictGet? W' "A" = dictGet? wins "A") ∧
    (∀ k : String, k ≠ "A" → k ≠ "B" → k ≠ "DAYS" → dictGet? W' k = dictGet? wins k) := by
  have h4m1 : ((BOARD_COLS : Nat) : Int) - 1 ≠ -1 := by decide
  rw [simulate_battle_eq_win wins board idx dice row hget hwin] at hres
  rcases hwin with hb | hb
  · rw [if_pos hb] at hres
    obtain ⟨w, hw, hW, hBd⟩ := win_branch_inv _ _ _ _ _ hres
    have hW' : W' = win_wins wins "A" w := hW
    refine ⟨?_, fun _ => ?_, fun hcon => ?_, fun k hkA hkB hkD => ?_⟩
    · rw [hW']
      unfold win_wins
      rw [dictGet?_insert_ne _ _ _ _ (by decide), dictGet?_insert_ne _ _ _ _ (by decide)]
    · rw [hW']
      unfold win_wins
      rw [dictGet?_insert_ne _ _ _ _ (by decide), dictGet?_insert_ne _ _ _ _ (by decide)]
    · rw [hb] at hcon
      exact absurd hcon h4m1
    · rw [hW']
      unfold win_wins
      rw [dictGet?_insert_ne _ _ _ _ hkD, dictGet?_insert_ne _ _ _ _ hkA]
  · rw [if_neg (by rw [hb]; exact fun hcon => h4m1 hcon.symm)] at hres
    obtain ⟨w, hw, hW, hBd⟩ := win_branch_inv _ _ _ _ _ hres
    have hW' : W' = win_wins wins "B" w := hW
    refine ⟨?_, fun hcon => ?_, fun _ => ?_, fun k hkA hkB hkD => ?_⟩
    · rw [hW']
      unfold win_wins
      rw [dictGet?_insert_ne _ _ _ _ (by decide), dictGet?_insert_ne _ _ _ _ (by decide)]
    · rw [hb] at hcon
      exact absurd hcon.symm h4m1
    · rw [hW']
      unfold win_wins
      rw [dictGet?_insert_ne _ _ _ _ (by decide), dictGet?_insert_ne _ _ _ _ (by decide)]
    · rw [hW']
      unfold win_wins
      rw [dictGet?_insert_ne _ _ _ _ hkD, dictGet?_insert_ne _ _ _ _ hkB]

/-- Witness for C8: in the A-win step of the C4 scenario, `RECORD` (7), B's
tally, and an unrelated key are all unchanged. -/
theorem c8_win_frame_witness :
    dictGet? ((simulate_battle (mkWins 2 3 5 7)
        [['A', 'A', 'A', 'A', 'A'], ['A', 'A', 'A', 'B', 'B'], ['A', 'A', 'A', 'B', 'B'],
         ['A', 'A', 'B', 'B', 'B'], ['A', 'A', 'B', 'B', 'B'], ['A', 'A', 'B', 'B', 'B']]
        0 false).getD ([], [], "", "")).1 "RECORD"
      = dictGet? (mkWins 2 3 5 7) "RECORD" ∧
    dictGet? ((simulate_battle (mkWins 2 3 5 7)
        [['A', 'A', 'A', 'A', 'A'], ['A', 'A', 'A', 'B', 'B'], ['A', 'A', 'A', 'B', 'B'],
         ['A', 'A', 'B', 'B', 'B'], ['A', 'A', 'B', 'B', 'B'], ['A', 'A', 'B', 'B', 'B']]
        0 false).getD ([], [], "", "")).1 "B"
      = dictGet? (mkWins 2 3 5 7) "B" ∧
    dictGet? ((simulate_battle (mkWins 2 3 5 7)
        [['A', 'A', 'A', 'A', 'A'], ['A', 'A', 'A', 'B', 'B'], ['A', 'A', 'A', 'B', 'B'],
         ['A', 'A', 'B', 'B', 'B'], ['A', 'A', 'B', 'B', 'B'], ['A', 'A', 'B', 'B', 'B']]
        0 false).getD ([], [], "", "")).1 "XYZ"
      = dictGet? (mkWins 2 3 5 7) "XYZ" := by
  have hres : simulate_battle (mkWins 2 3 5 7)
      [['A', 'A', 'A', 'A', 'A'], ['A', 'A', 'A', 'B', 'B'], ['A', 'A', 'A', 'B', 'B'],
       ['A', 'A', 'B', 'B', 'B'], ['A', 'A', 'B', 'B', 'B'], ['A', 'A', 'B', 'B', 'B']]
      0 false
      = some (((simulate_battle (mkWins 2 3 5 7)
          [['A', 'A', 'A', 'A', 'A'], ['A', 'A', 'A', 'B', 'B'], ['A', 'A', 'A', 'B', 'B'],
           ['A', 'A', 'B', 'B', 'B'], ['A', 'A', 'B', 'B', 'B'], ['A', 'A', 'B', 'B', 'B']]
          0 false).getD ([], [], "", "")).1,
        ((simulate_battle (mkWins 2 3 5 7)
          [['A', 'A', 'A', 'A', 'A'], ['A', 'A', 'A', 'B', 'B'], ['A', 'A', 'A', 'B', 'B'],
           ['A', 'A', 'B', 'B', 'B'], ['A', 'A', 'B', 'B', 'B'], ['A', 'A', 'B', 'B', 'B']]
          0 false).getD ([], [], "", "")).2.1,
        ((simulate_battle (mkWins 2 3 5 7)
          [['A', 'A', 'A', 'A', 'A'], ['A', 'A', 'A', 'B', 'B'], ['A', 'A', 'A', 'B', 'B'],
           ['A', 'A', 'B', 'B', 'B'], ['A', 'A', 'B', 'B', 'B'], ['A', 'A', 'B', 'B', 'B']]
          0 false).getD ([], [], "", "")).2.2.1,
        ((simulate_battle (mkWins 2 3 5 7)
          [['A', 'A', 'A', 'A', 'A'], ['A', 'A', 'A', 'B', 'B'], ['A', 'A', 'A', 'B', 'B'],
           ['A', 'A', 'B', 'B', 'B'], ['A', 'A', 'B', 'B', 'B'], ['A', 'A', 'B', 'B', 'B']]
          0 false).getD ([], [], "", "")).2.2.2) := by
    rfl
  have main := c8_win_frame (mkWins 2 3 5 7)
    [['A', 'A', 'A', 'A', 'A'], ['A', 'A', 'A', 'B', 'B'], ['A', 'A', 'A', 'B', 'B'],
     ['A', 'A', 'B', 'B', 'B'], ['A', 'A', 'B', 'B', 'B'], ['A', 'A', 'B', 'B', 'B']]
    0 false ['A', 'A', 'A', 'A', 'A'] _ _ _ _ rfl (Or.inl (by decide)) hres
  exact ⟨main.1, main.2.1 (by decide), main.2.2.2 "XYZ" (by decide) (by decide) (by decide)⟩

/-- C9: starting from the default grid, row 0 is `AAABB` with boundary 2; one
+1 move (coin flip below 0.5) on that row produces `AAAAB`; the next +1 move
produces `AAAAA`; the step after that is a win for faction A on that row:
faction A's tally goes from 0 to 1. -/
theorem c9_example_run :
    rowBoundary ['A', 'A', 'A', 'B', 'B'] = 2 ∧
    default_state.2.headD [] = ['A', 'A', 'A', 'B', 'B'] ∧
    (simulate_battle default_state.1 default_state.2 0 true).map
        (fun res => res.2.1.headD []) = some ['A', 'A', 'A', 'A', 'B'] ∧
    ((simulate_battle default_state.1 default_state.2 0 true).bind
        (fun res => simulate_battle res.1 res.2.1 0 true)).map
        (fun res => res.2.1.headD []) = some ['A', 'A', 'A', 'A', 'A'] ∧
    ((simulate_battle default_state.1 default_state.2 0 true).bind
        (fun res => simulate_battle res.1 res.2.1 0 true)).map
        (fun res => dictGet? res.1 "A") = some (some 0) ∧
    (((simulate_battle default_state.1 default_state.2 0 true).bind
        (fun res => simulate_battle res.1 res.2.1 0 true)).bind
        (fun res => simulate_battle res.1 res.2.1 0 true)).map
        (fun res => dictGet? res.1 "A") = some (some 1) := by
  refine ⟨by decide, by decide, by decide, by decide, by decide, by decide⟩

/-- C10: whenever the file content has at least the required 1 + 6 lines, all
counter tokens of the first line parse, and the 6 grid lines each have exactly
5 characters, `load_state` returns that grid exactly as written, no matter
which characters the grid lines contain — grid cells outside the `{A, B}`
alphabet are accepted without falling back to the default state. -/
theorem c10_load_accepts_any_chars (content : String) (w0 : Dict)
    (hlen : 1 + BOARD_ROWS ≤ (pyLines content.data).length)
    (htok : parseWinsTokens (pySplitWs ((pyLines content.data).headD "").data).tail []
      = some w0)
    (hwide : ∀ l ∈ ((pyLines content.data).drop 1).take BOARD_ROWS, l.length = BOARD_COLS) :
    (load_state content).2 =
      (((pyLines content.data).drop 1).take BOARD_ROWS).map String.data := by
  obtain ⟨hdr, rows, he⟩ : ∃ hdr rows, pyLines content.data = hdr :: rows := by
    rcases h : pyLines content.data with _ | ⟨hdr, rows⟩
    · rw [h] at hlen
      simp [BOARD_ROWS] at hlen
    · exact ⟨hdr, rows, rfl⟩
  unfold load_state
  rw [he] at htok hwide hlen ⊢
  simp only [List.headD_cons] at htok
  simp only [List.drop_succ_cons, List.drop_zero] at hwide ⊢
  rw [load_lines_grid hdr rows w0 (by simp at hlen; omega) htok hwide]

/-- Witness for C10: a file whose grid lines contain `C`, `?`, `!` and digits
loads with exactly that grid; in particular the loaded board contains the
cell `C`, which is outside the `{A, B}` alphabet. -/
theorem c10_load_accepts_any_chars_witness :
    (load_state "WINS A:0 B:0 DAYS:0 RECORD:0\nCCCCC\nXY?!Q\nAAAAA\nBBBBB\n12345\nZZZZZ").2
      = [['C', 'C', 'C', 'C', 'C'], ['X', 'Y', '?', '!', 'Q'], ['A', 'A', 'A', 'A', 'A'],
         ['B', 'B', 'B', 'B', 'B'], ['1', '2', '3', '4', '5'], ['Z', 'Z', 'Z', 'Z', 'Z']] ∧
    'C' ∈ (load_state
      "WINS A:0 B:0 DAYS:0 RECORD:0\nCCCCC\nXY?!Q\nAAAAA\nBBBBB\n12345\nZZZZZ").2.headD [] := by
  constructor
  · have h := c10_load_accepts_any_chars
      "WINS A:0 B:0 DAYS:0 RECORD:0\nCCCCC\nXY?!Q\nAAAAA\nBBBBB\n12345\nZZZZZ"
      [("A", 0), ("B", 0), ("DAYS", 0), ("RECORD", 0)] (by decide) (by decide) (by decide)
    rw [h]
    rfl
  · decide
